import Mathlib

/-!
Shallow embedding of the `vivy-yi/mobius` maintenance scripts
(`standardize_article_ids.py`, `generate_missing_articles.py`,
`convert_to_markdown_html.py`) and proofs about them.

The scripts operate on a JSON data file (`data/articles.json`) and a
directory of HTML files (`knowledge/`).  The JSON data is modelled by the
`ArticlesData` structure below; the file system is modelled by `FS`, an
association list from full relative path (for example
`"knowledge/x.html"`) to file content.  Python string operations used by
the scripts (`startswith`, `endswith`, slicing, `split('/')[-1]` /
`os.path.basename`) are translated into Lean functions over `String.data`
so that they can be reasoned about; `str.replace` is translated as
`String.replace`, which has the same non-overlapping left-to-right
semantics for the non-empty patterns the script uses.
-/

/-- Translation of Python `s.startswith(t)`: the first `t.length`
characters of `s` are exactly `t`. -/
def pyStartsWith (s t : String) : Bool :=
  s.data.take t.data.length == t.data

/-- Translation of Python `s.endswith(t)`: the last `t.length`
characters of `s` are exactly `t`. -/
def pyEndsWith (s t : String) : Bool :=
  s.data.drop (s.data.length - t.data.length) == t.data

/-- Translation of the Python slice `s[:-n]` (drop the last `n`
characters; the empty string when `s` is shorter than `n`). -/
def pySliceNeg (s : String) (n : Nat) : String :=
  ⟨s.data.take (s.data.length - n)⟩

/-- The part of a path after its last `'/'`.  Translation of both
`os.path.basename` (used by the Converter) and `url.split('/')[-1]`
(used by the Renamer's integrity check); the two agree on every string. -/
def lastSeg (s : String) : String :=
  ⟨(s.data.reverse.takeWhile (fun c => !(c == '/'))).reverse⟩

/-- The file system: an association list from full relative path to file
content.  `os.path.exists` / `open(...)` look a path up; writing a file
replaces any previous binding; `os.remove` deletes the binding. -/
abbrev FS := List (String × String)

/-- Content of the file at path `n`, if it exists (models `open(n).read()`
and, via `Option.isSome`, `os.path.exists(n)`). -/
def fsRead (fs : FS) (n : String) : Option String :=
  fs.lookup n

/-- Models `os.path.exists(n)`. -/
def fsExists (fs : FS) (n : String) : Bool :=
  (fsRead fs n).isSome

/-- Models `open(n, 'w').write(c)`: the file at `n` now has content `c`. -/
def fsWrite (fs : FS) (n c : String) : FS :=
  (n, c) :: fs.filter (fun p => p.1 != n)

/-- Models `os.remove(n)`. -/
def fsRemove (fs : FS) (n : String) : FS :=
  fs.filter (fun p => p.1 != n)

/-- The path `knowledge/<aid>.html`, as built by
`os.path.join('knowledge', f"{aid}.html")` and by the f-string
`f"knowledge/{aid}.html"` in the scripts. -/
def kpath (aid : String) : String :=
  "knowledge/" ++ (aid ++ ".html")

/-- An article (or FAQ) record of `data/articles.json`.  `url` and
`content` are the fields the scripts access conditionally
(`'url' in article`, `article_data.get('content', '')`). -/
structure Article where
  id : String
  title : String
  excerpt : String
  date : String
  readingTime : String
  category : String
  type : String
  tags : List String
  content : Option String
  url : Option String
deriving DecidableEq, Repr

/-- An entry of `data['metadata']['hotContent']` (only its `id` is read). -/
structure HotItem where
  id : String
deriving DecidableEq, Repr

/-- The JSON data file: `categories` maps category keys to ordered lists
of article records, `faqs` is the optional separate FAQ grouping
(`'faqs' in data`), and `hotContent` is the optional
`data['metadata']['hotContent']` list. -/
structure ArticlesData where
  categories : List (String × List Article)
  faqs : Option (List (String × List Article))
  hotContent : Option (List HotItem)
deriving DecidableEq, Repr

/-! ## standardize_article_ids.py -/

/-- `create_id_mapping`: the fixed old-ID → standardized-ID table. -/
def create_id_mapping : List (String × String) :=
  [("japan-company-registration-2024", "business-article-company-registration"),
   ("japan-business-setup-guide", "business-article-setup-guide"),
   ("business-faq-001", "business-faq-restaurant"),
   ("business-faq-002", "business-faq-beauty-salon"),
   ("japan-visa-guide-2024", "visa-article-management-guide"),
   ("japan-high-talent-visa", "visa-article-talent-points"),
   ("visa-faq-001", "visa-faq-renewal"),
   ("japan-tax-guide-2024", "tax-article-declaration-guide"),
   ("japan-consumption-tax", "tax-article-consumption-tax"),
   ("tax-faq-001", "tax-faq-registration"),
   ("tax-faq-002", "tax-faq-subsidy-application"),
   ("japan-it-subsidy-2024", "subsidy-article-it-digital"),
   ("japan-green-subsidy", "subsidy-article-green-environmental"),
   ("subsidy-faq-001", "subsidy-faq-success-tips"),
   ("japan-labor-law-guide-2024", "legal-article-labor-law"),
   ("japan-personal-data-protection", "legal-article-data-protection"),
   ("legal-faq-001", "legal-faq-contract"),
   ("legal-faq-002", "legal-faq-ip-protection"),
   ("japan-banking-guide", "life-article-banking"),
   ("japan-housing-guide", "life-article-housing"),
   ("life-faq-001", "life-faq-banking-account")]

/-- Body of the per-article loop of `update_articles_ids`: replace a
mapped id and rewrite a `knowledge/` url; urls starting with
`../services/` (and any other url) are left as they are. -/
def updateArticle (idMapping : List (String × String)) (a : Article) : Article :=
  match idMapping.lookup a.id with
  | some newId =>
    let a2 := { a with id := newId }
    match a2.url with
    | some oldUrl =>
      if pyStartsWith oldUrl "knowledge/" then
        { a2 with url := some (kpath newId) }
      else if pyStartsWith oldUrl "../services/" then
        a2
      else
        a2
    | none => a2
  | none => a

/-- Body of the `hotContent` loop of `update_articles_ids`. -/
def updateHotItem (idMapping : List (String × String)) (h : HotItem) : HotItem :=
  match idMapping.lookup h.id with
  | some newId => { h with id := newId }
  | none => h

/-- `update_articles_ids`: rewrite the ids (and internal urls) of all
records of `data['categories']` and the ids of
`data['metadata']['hotContent']`.  The `faqs` grouping is not visited. -/
def update_articles_ids (idMapping : List (String × String))
    (data : ArticlesData) : ArticlesData :=
  { data with
    categories := data.categories.map (fun p => (p.1, p.2.map (updateArticle idMapping))),
    hotContent := match data.hotContent with
      | some l => some (l.map (updateHotItem idMapping))
      | none => none }

/-- The loop of `rename_html_files` over `id_mapping.items()`: if the
old-id file exists, read it, substitute `data-id="<old>"` attributes,
write the new-id file and delete the old one; otherwise log a warning.
Returns the final file system and the log lines of the loop. -/
def runRename : List (String × String) → FS → FS × List String
  | [], fs => (fs, [])
  | e :: rest, fs =>
    match fsRead fs (kpath e.1) with
    | some content =>
      let newContent :=
        String.replace content ("data-id=\"" ++ e.1 ++ "\"") ("data-id=\"" ++ e.2 ++ "\"")
      let next := runRename rest (fsRemove (fsWrite fs (kpath e.2) newContent) (kpath e.1))
      (next.1, ("✅ 重命名: " ++ e.1 ++ ".html -> " ++ e.2 ++ ".html") :: next.2)
    | none =>
      let next := runRename rest fs
      (next.1, ("⚠️  文件不存在: " ++ kpath e.1) :: next.2)

/-- The warning printed by `rename_html_files` when the old-id file is
missing. -/
def missingFileWarning (oldId : String) : String :=
  "⚠️  文件不存在: " ++ kpath oldId

/-- `rename_html_files`: if the `knowledge` directory does not exist,
print an error and return without renaming anything; otherwise run the
per-entry rename loop. -/
def rename_html_files (dirExists : Bool) (idMapping : List (String × String))
    (fs : FS) : FS × List String :=
  if dirExists then runRename idMapping fs
  else (fs, ["❌ 目录 knowledge 不存在"])

/-- The issues `verify_integrity` collects for one article record of a
category: inside the `url.startswith('knowledge/')` branch, a mismatch
between `url.split('/')[-1]` and `<id>.html`, and a missing file at the
url path. -/
def articleUrlIssues (fs : FS) (a : Article) : List String :=
  match a.url with
  | some url =>
    if pyStartsWith url "knowledge/" then
      (if lastSeg url != (a.id ++ ".html") then
        ["URL不匹配: ID " ++ a.id ++ " -> URL " ++ url]
      else []) ++
      (if !(fsExists fs url) then ["HTML文件不存在: " ++ url] else [])
    else []
  | none => []

/-- The url/file issues collected by the categories scan of
`verify_integrity`, in scan order. -/
def urlIssues (fs : FS) (data : ArticlesData) : List String :=
  (data.categories.flatMap Prod.snd).flatMap (articleUrlIssues fs)

/-- The dangling-reference issues collected by the `hotContent` scan of
`verify_integrity`: a `hotContent` id with no matching record in any
category. -/
def hotIssues (data : ArticlesData) : List String :=
  match data.hotContent with
  | some l =>
    l.flatMap (fun h =>
      if (data.categories.flatMap Prod.snd).any (fun a => a.id == h.id) then []
      else ["hotContent引用的文章不存在: " ++ h.id])
  | none => []

/-- `verify_integrity`: collect every violation (never stopping at the
first) and return the list together with the boolean result (`True`
exactly when no issue was found). -/
def verify_integrity (data : ArticlesData) (fs : FS) : List String × Bool :=
  let issues := urlIssues fs data ++ hotIssues data
  (issues, issues.isEmpty)

/-- The observable outcome of one run of the Renamer's `main`:
the JSON structure written back to `data/articles.json`, the final file
system, the log of the rename step, and the result of the integrity
verification. -/
structure RenamerResult where
  saved : ArticlesData
  fs : FS
  renameLog : List String
  issues : List String
  ok : Bool
deriving DecidableEq, Repr

/-- `main` of `standardize_article_ids.py`: update the ids in memory,
save the JSON, rename the HTML files, then verify integrity on the
updated data and final file system. -/
def renamer_main (dirExists : Bool) (idMapping : List (String × String))
    (data : ArticlesData) (fs : FS) : RenamerResult :=
  let data2 := update_articles_ids idMapping data
  let step := rename_html_files dirExists idMapping fs
  let check := verify_integrity data2 step.1
  ⟨data2, step.1, step.2, check.1, check.2⟩

/-! ## Basic lemmas about the string helpers and the file-system model -/

theorem string_data_inj {a b : String} (h : a.data = b.data) : a = b := by
  cases a with
  | mk da => cases b with
    | mk db => exact congrArg String.mk (by simpa using h)

theorem kpath_inj {a b : String} (h : kpath a = kpath b) : a = b := by
  have hd : ("knowledge/" : String).data ++ (a.data ++ (".html" : String).data) =
      ("knowledge/" : String).data ++ (b.data ++ (".html" : String).data) := by
    have h2 := congrArg String.data h
    simpa [kpath, String.data_append] using h2
  exact string_data_inj (List.append_cancel_right (List.append_cancel_left hd))

theorem kpath_ne {a b : String} (h : a ≠ b) : kpath a ≠ kpath b :=
  fun hk => h (kpath_inj hk)

theorem pyStartsWith_append (t s : String) : pyStartsWith (t ++ s) t = true := by
  simp [pyStartsWith, String.data_append, List.take_left]

theorem pyEndsWith_append (s t : String) : pyEndsWith (s ++ t) t = true := by
  simp [pyEndsWith, String.data_append, Nat.add_sub_cancel, List.drop_left]

theorem pySliceNeg_append {s t : String} {n : Nat} (h : t.data.length = n) :
    pySliceNeg (s ++ t) n = s := by
  apply string_data_inj
  simp [pySliceNeg, String.data_append, ← h, Nat.add_sub_cancel, List.take_left]

theorem lookup_filter_ne {fs : FS} {n f : String} (h : f ≠ n) :
    (fs.filter (fun p => p.1 != n)).lookup f = fs.lookup f := by
  induction fs with
  | nil => rfl
  | cons p rest ih =>
    obtain ⟨k, v⟩ := p
    by_cases hpn : k = n
    · subst hpn
      have hfp : (f == k) = false := beq_eq_false_iff_ne.mpr h
      rw [List.filter_cons_of_neg (by simp), ih, List.lookup_cons, hfp]
    · by_cases hfp : f = k
      · subst hfp
        rw [List.filter_cons_of_pos (by simpa using hpn), List.lookup_cons, List.lookup_cons,
          beq_self_eq_true]
      · have hfp' : (f == k) = false := beq_eq_false_iff_ne.mpr hfp
        rw [List.filter_cons_of_pos (by simpa using hpn), List.lookup_cons, List.lookup_cons, hfp']
        exact ih

theorem fsRead_write_self (fs : FS) (n c : String) :
    fsRead (fsWrite fs n c) n = some c := by
  simp [fsRead, fsWrite]

theorem fsRead_write_ne (fs : FS) (n c f : String) (h : f ≠ n) :
    fsRead (fsWrite fs n c) f = fsRead fs f := by
  have hfn : (f == n) = false := by simp [h]
  simp [fsRead, fsWrite, List.lookup_cons, hfn, lookup_filter_ne h]

theorem fsRead_remove_self (fs : FS) (n : String) :
    fsRead (fsRemove fs n) n = none := by
  rw [fsRead, List.lookup_eq_none_iff]
  intro p hp
  rw [fsRemove] at hp
  have h1 := List.of_mem_filter hp
  have h2 : p.1 ≠ n := by simpa using h1
  simpa using Ne.symm h2

theorem fsRead_remove_ne (fs : FS) (n f : String) (h : f ≠ n) :
    fsRead (fsRemove fs n) f = fsRead fs f :=
  lookup_filter_ne h

theorem fsRead_some_key_mem {fs : FS} {n c : String} (h : fsRead fs n = some c) :
    n ∈ fs.map Prod.fst := by
  have hs : (fs.lookup n).isSome = true := by rw [fsRead] at h; simp [h]
  rw [List.lookup_isSome_iff] at hs
  obtain ⟨p, hp, he⟩ := hs
  have : n = p.1 := by simpa using he
  exact this ▸ List.mem_map_of_mem Prod.fst hp

/-! ## Lemmas about the rename loop -/

theorem runRename_read_untouched (l : List (String × String)) (fs : FS) (f : String)
    (h : ∀ e ∈ l, kpath e.1 ≠ f ∧ kpath e.2 ≠ f) :
    fsRead (runRename l fs).1 f = fsRead fs f := by
  induction l generalizing fs with
  | nil => rfl
  | cons e rest ih =>
    have he := h e (List.mem_cons_self e rest)
    have hrest : ∀ e' ∈ rest, kpath e'.1 ≠ f ∧ kpath e'.2 ≠ f :=
      fun e' m => h e' (List.mem_cons_of_mem e m)
    cases hr : fsRead fs (kpath e.1) with
    | some c =>
      simp only [runRename, hr]
      rw [ih _ hrest, fsRead_remove_ne _ _ _ (Ne.symm he.1),
        fsRead_write_ne _ _ _ _ (Ne.symm he.2)]
    | none =>
      simp only [runRename, hr]
      exact ih _ hrest

theorem runRename_read_none_preserved (l : List (String × String)) (fs : FS) (f : String)
    (hn : fsRead fs f = none) (h : ∀ e ∈ l, kpath e.2 ≠ f) :
    fsRead (runRename l fs).1 f = none := by
  induction l generalizing fs with
  | nil => exact hn
  | cons e rest ih =>
    have he := h e (List.mem_cons_self e rest)
    have hrest : ∀ e' ∈ rest, kpath e'.2 ≠ f := fun e' m => h e' (List.mem_cons_of_mem e m)
    cases hr : fsRead fs (kpath e.1) with
    | some c =>
      simp only [runRename, hr]
      refine ih _ ?_ hrest
      by_cases hf : f = kpath e.1
      · rw [hf]; exact fsRead_remove_self _ _
      · rw [fsRead_remove_ne _ _ _ hf, fsRead_write_ne _ _ _ _ (Ne.symm he)]
        exact hn
    | none =>
      simp only [runRename, hr]
      exact ih _ hn hrest

/-- The replacement applied to the content of a renamed file. -/
def replacedContent (e : String × String) (c : String) : String :=
  String.replace c ("data-id=\"" ++ e.1 ++ "\"") ("data-id=\"" ++ e.2 ++ "\"")

theorem runRename_entry (l : List (String × String)) (fs : FS)
    (H1 : (l.map Prod.fst).Nodup)
    (H2 : ∀ p ∈ l, ∀ q ∈ l, p.1 ≠ q.2)
    (H3 : (l.map Prod.snd).Nodup) :
    ∀ e ∈ l,
      (∀ c, fsRead fs (kpath e.1) = some c →
        fsRead (runRename l fs).1 (kpath e.2) = some (replacedContent e c) ∧
        fsRead (runRename l fs).1 (kpath e.1) = none) ∧
      (fsRead fs (kpath e.1) = none →
        missingFileWarning e.1 ∈ (runRename l fs).2 ∧
        fsRead (runRename l fs).1 (kpath e.1) = none) := by
  induction l generalizing fs with
  | nil => intro e he; cases he
  | cons hd rest ih =>
    have H1r : (rest.map Prod.fst).Nodup := (List.nodup_cons.mp (by simpa using H1)).2
    have H2r : ∀ p ∈ rest, ∀ q ∈ rest, p.1 ≠ q.2 := fun p hp q hq =>
      H2 p (List.mem_cons_of_mem hd hp) q (List.mem_cons_of_mem hd hq)
    have H3r : (rest.map Prod.snd).Nodup := (List.nodup_cons.mp (by simpa using H3)).2
    have hd1_not : hd.1 ∉ rest.map Prod.fst := (List.nodup_cons.mp (by simpa using H1)).1
    have hd2_not : hd.2 ∉ rest.map Prod.snd := (List.nodup_cons.mp (by simpa using H3)).1
    intro e he
    rcases List.mem_cons.mp he with rfl | herest
    · -- e is the head entry
      constructor
      · intro c hc
        simp only [runRename, hc]
        have h12 : e.1 ≠ e.2 := H2 e (List.mem_cons_self e rest) e (List.mem_cons_self e rest)
        constructor
        · rw [runRename_read_untouched rest _ (kpath e.2) ?hunt]
          case hunt =>
            intro q hq
            refine ⟨kpath_ne ?_, kpath_ne ?_⟩
            · exact H2 q (List.mem_cons_of_mem e hq) e (List.mem_cons_self e rest)
            · intro hq2
              exact hd2_not (hq2 ▸ List.mem_map_of_mem Prod.snd hq)
          rw [fsRead_remove_ne _ _ _ (Ne.symm (kpath_ne h12)), fsRead_write_self]
          rfl
        · apply runRename_read_none_preserved rest _ (kpath e.1)
          · exact fsRead_remove_self _ _
          · intro q hq
            exact Ne.symm (kpath_ne (H2 e (List.mem_cons_self e rest) q (List.mem_cons_of_mem e hq)))
      · intro hn
        simp only [runRename, hn]
        constructor
        · exact List.mem_cons_self _ _
        · apply runRename_read_none_preserved rest fs (kpath e.1) hn
          intro q hq
          exact Ne.symm (kpath_ne (H2 e (List.mem_cons_self e rest) q (List.mem_cons_of_mem e hq)))
    · -- e is in the tail
      have he1_ne : e.1 ≠ hd.1 := by
        intro hh
        exact hd1_not (hh ▸ List.mem_map_of_mem Prod.fst herest)
      have he1_ne2 : e.1 ≠ hd.2 :=
        H2 e (List.mem_cons_of_mem hd herest) hd (List.mem_cons_self hd rest)
      cases hr : fsRead fs (kpath hd.1) with
      | some c =>
        simp only [runRename, hr]
        have hpres : fsRead (fsRemove (fsWrite fs (kpath hd.2) (replacedContent hd c)) (kpath hd.1))
            (kpath e.1) = fsRead fs (kpath e.1) := by
          rw [fsRead_remove_ne _ _ _ (kpath_ne he1_ne), fsRead_write_ne _ _ _ _ (kpath_ne he1_ne2)]
        have ihe := ih (fsRemove (fsWrite fs (kpath hd.2) (replacedContent hd c)) (kpath hd.1))
          H1r H2r H3r e herest
        constructor
        · intro c' hc'
          have := (ihe.1 c' (by rw [hpres]; exact hc'))
          exact this
        · intro hn
          have := ihe.2 (by rw [hpres]; exact hn)
          exact ⟨List.mem_cons_of_mem _ this.1, this.2⟩
      | none =>
        simp only [runRename, hr]
        have ihe := ih fs H1r H2r H3r e herest
        exact ⟨ihe.1, fun hn => ⟨List.mem_cons_of_mem _ (ihe.2 hn).1, (ihe.2 hn).2⟩⟩

/-! ## Claims about the rename step (C2, C5) -/

/-- C2: for every mapping entry, after the file-renaming step, exactly one
of {the old file existed and is now absent while the new file exists, the
old file never existed and a warning was logged} holds, and the old-id
file and the new-id file are never both present afterwards.  The
hypotheses are the documented invariants of the hand-authored mapping
table: distinct old ids, distinct new ids, and no old id equal to any
new id. -/
theorem renamer_old_new_file_exclusivity (m : List (String × String)) (fs : FS)
    (H1 : (m.map Prod.fst).Nodup)
    (H2 : ∀ p ∈ m, ∀ q ∈ m, p.1 ≠ q.2)
    (H3 : (m.map Prod.snd).Nodup) :
    ∀ e ∈ m,
      ((fsRead fs (kpath e.1)).isSome = true →
        fsRead (rename_html_files true m fs).1 (kpath e.1) = none ∧
        (fsRead (rename_html_files true m fs).1 (kpath e.2)).isSome = true) ∧
      (fsRead fs (kpath e.1) = none →
        missingFileWarning e.1 ∈ (rename_html_files true m fs).2) ∧
      ¬(fsRead (rename_html_files true m fs).1 (kpath e.1) ≠ none ∧
        fsRead (rename_html_files true m fs).1 (kpath e.2) ≠ none) := by
  intro e he
  have hrw : rename_html_files true m fs = runRename m fs := rfl
  have main := runRename_entry m fs H1 H2 H3 e he
  have holdnone : fsRead (runRename m fs).1 (kpath e.1) = none := by
    cases hr : fsRead fs (kpath e.1) with
    | some c => exact (main.1 c hr).2
    | none => exact (main.2 hr).2
  refine ⟨?_, ?_, ?_⟩
  · intro hsome
    cases hr : fsRead fs (kpath e.1) with
    | none => rw [hr] at hsome; simp at hsome
    | some c =>
      refine ⟨by rw [hrw]; exact holdnone, ?_⟩
      rw [hrw, (main.1 c hr).1]
      rfl
  · intro hn
    rw [hrw]
    exact (main.2 hn).1
  · rintro ⟨h1, -⟩
    rw [hrw] at h1
    exact h1 holdnone

/-- C5: for every mapping entry whose old-id file exists, the rename step
ends with the new-id file holding exactly the old content with every
`data-id="<old>"` occurrence replaced by `data-id="<new>"`, and the old
file deleted; for an entry whose old-id file does not exist, the warning
is logged and the loop continues over the remaining entries. -/
theorem renamer_rewrites_and_moves_content (m : List (String × String)) (fs : FS)
    (H1 : (m.map Prod.fst).Nodup)
    (H2 : ∀ p ∈ m, ∀ q ∈ m, p.1 ≠ q.2)
    (H3 : (m.map Prod.snd).Nodup) :
    ∀ e ∈ m,
      (∀ c, fsRead fs (kpath e.1) = some c →
        fsRead (rename_html_files true m fs).1 (kpath e.2) = some (replacedContent e c) ∧
        fsRead (rename_html_files true m fs).1 (kpath e.1) = none) ∧
      (fsRead fs (kpath e.1) = none →
        missingFileWarning e.1 ∈ (rename_html_files true m fs).2) := by
  intro e he
  have main := runRename_entry m fs H1 H2 H3 e he
  exact ⟨main.1, fun hn => (main.2 hn).1⟩

/-! ## Idempotence of the Renamer (C3) -/

theorem lookup_pair_mem {m : List (String × String)} {k v : String}
    (h : m.lookup k = some v) : (k, v) ∈ m := by
  rcases List.lookup_eq_some_iff.mp h with ⟨l₁, l₂, rfl, -⟩
  simp

theorem lookup_isSome_of_pair_mem {m : List (String × String)} {p : String × String}
    (h : p ∈ m) : (m.lookup p.1).isSome = true := by
  rw [List.lookup_isSome_iff]
  exact ⟨p, h, by simp⟩

theorem updateArticle_eq_of_none {m : List (String × String)} {a : Article}
    (h : m.lookup a.id = none) : updateArticle m a = a := by
  simp [updateArticle, h]

theorem updateArticle_id {m : List (String × String)} {a : Article} {v : String}
    (hl : m.lookup a.id = some v) : (updateArticle m a).id = v := by
  simp only [updateArticle, hl]
  cases hu : a.url with
  | none => simp [hu]
  | some u =>
    simp only [hu]
    split
    · rfl
    · split <;> rfl

theorem updateArticle_idem {m : List (String × String)}
    (H : ∀ p ∈ m, m.lookup p.2 = none) (a : Article) :
    updateArticle m (updateArticle m a) = updateArticle m a := by
  cases hl : m.lookup a.id with
  | none =>
    rw [updateArticle_eq_of_none hl, updateArticle_eq_of_none hl]
  | some v =>
    have hv : m.lookup v = none := H (a.id, v) (lookup_pair_mem hl)
    apply updateArticle_eq_of_none
    rw [updateArticle_id hl]
    exact hv

theorem updateHotItem_idem {m : List (String × String)}
    (H : ∀ p ∈ m, m.lookup p.2 = none) (h : HotItem) :
    updateHotItem m (updateHotItem m h) = updateHotItem m h := by
  cases hl : m.lookup h.id with
  | none => simp [updateHotItem, hl]
  | some v =>
    have hv : m.lookup v = none := H (h.id, v) (lookup_pair_mem hl)
    simp [updateHotItem, hl, hv]

theorem update_articles_ids_idem {m : List (String × String)}
    (H : ∀ p ∈ m, m.lookup p.2 = none) (d : ArticlesData) :
    update_articles_ids m (update_articles_ids m d) = update_articles_ids m d := by
  have hcats : ∀ cats : List (String × List Article),
      (cats.map (fun p => (p.1, p.2.map (updateArticle m)))).map
          (fun p => (p.1, p.2.map (updateArticle m)))
        = cats.map (fun p => (p.1, p.2.map (updateArticle m))) := by
    intro cats
    rw [List.map_map]
    apply List.map_congr_left
    intro p _
    simp only [Function.comp_apply, Prod.mk.injEq, true_and]
    rw [List.map_map]
    apply List.map_congr_left
    intro a _
    exact updateArticle_idem H a
  cases d with
  | mk cats faqs hot =>
    cases hot with
    | none =>
      simp only [update_articles_ids]
      congr 1
      exact hcats cats
    | some l =>
      simp only [update_articles_ids]
      congr 1
      · exact hcats cats
      · simp only [Option.some.injEq]
        rw [List.map_map]
        apply List.map_congr_left
        intro h _
        exact updateHotItem_idem H h

theorem runRename_all_old_absent (l : List (String × String)) (fs : FS)
    (H : ∀ p ∈ l, ∀ q ∈ l, q.2 ≠ p.1) :
    ∀ e ∈ l, fsRead (runRename l fs).1 (kpath e.1) = none := by
  induction l generalizing fs with
  | nil => intro e he; cases he
  | cons hd rest ih =>
    have Hr : ∀ p ∈ rest, ∀ q ∈ rest, q.2 ≠ p.1 := fun p hp q hq =>
      H p (List.mem_cons_of_mem hd hp) q (List.mem_cons_of_mem hd hq)
    intro e he
    rcases List.mem_cons.mp he with rfl | herest
    · have hn : ∀ q ∈ rest, kpath q.2 ≠ kpath e.1 := fun q hq =>
        kpath_ne (H e (List.mem_cons_self e rest) q (List.mem_cons_of_mem e hq))
      cases hr : fsRead fs (kpath e.1) with
      | some c =>
        simp only [runRename, hr]
        exact runRename_read_none_preserved rest _ _ (fsRead_remove_self _ _) hn
      | none =>
        simp only [runRename, hr]
        exact runRename_read_none_preserved rest _ _ hr hn
    · cases hr : fsRead fs (kpath hd.1) with
      | some c =>
        simp only [runRename, hr]
        exact ih _ Hr e herest
      | none =>
        simp only [runRename, hr]
        exact ih _ Hr e herest

theorem runRename_fs_id_of_all_absent (l : List (String × String)) (fs : FS)
    (H : ∀ e ∈ l, fsRead fs (kpath e.1) = none) :
    (runRename l fs).1 = fs := by
  induction l with
  | nil => rfl
  | cons hd rest ih =>
    have hr := H hd (List.mem_cons_self hd rest)
    simp only [runRename, hr]
    exact ih (fun e he => H e (List.mem_cons_of_mem hd he))

/-- The result of running the Renamer a second time with the same mapping,
starting from the JSON and file system produced by a first run. -/
def renamerSecondRun (dirExists : Bool) (idMapping : List (String × String))
    (data : ArticlesData) (fs : FS) : RenamerResult :=
  renamer_main dirExists idMapping
    (renamer_main dirExists idMapping data fs).saved
    (renamer_main dirExists idMapping data fs).fs

/-- C3: the Renamer is idempotent.  Under the mapping-table invariant that
no new id is also an old id, a second run starting from the state the
first run produced saves the same JSON, leaves every HTML file untouched,
and its integrity verification reports exactly the issues of the first
run (no new ones). -/
theorem renamer_idempotent (dirExists : Bool) (m : List (String × String))
    (d : ArticlesData) (fs : FS)
    (H : ∀ p ∈ m, m.lookup p.2 = none) :
    (renamerSecondRun dirExists m d fs).saved = (renamer_main dirExists m d fs).saved ∧
    (renamerSecondRun dirExists m d fs).fs = (renamer_main dirExists m d fs).fs ∧
    (renamerSecondRun dirExists m d fs).issues = (renamer_main dirExists m d fs).issues ∧
    (renamerSecondRun dirExists m d fs).ok = (renamer_main dirExists m d fs).ok := by
  have hsaved : (renamerSecondRun dirExists m d fs).saved = (renamer_main dirExists m d fs).saved := by
    show update_articles_ids m (update_articles_ids m d) = update_articles_ids m d
    exact update_articles_ids_idem H d
  have hfs : (renamerSecondRun dirExists m d fs).fs = (renamer_main dirExists m d fs).fs := by
    show (rename_html_files dirExists m (renamer_main dirExists m d fs).fs).1
        = (renamer_main dirExists m d fs).fs
    cases dirExists with
    | false => rfl
    | true =>
      show (runRename m (renamer_main true m d fs).fs).1 = (renamer_main true m d fs).fs
      apply runRename_fs_id_of_all_absent
      intro e he
      have Hqp : ∀ p ∈ m, ∀ q ∈ m, q.2 ≠ p.1 := by
        intro p hp q hq heq
        have h1 : m.lookup q.2 = none := H q hq
        have h2 : (m.lookup p.1).isSome = true := lookup_isSome_of_pair_mem hp
        rw [← heq, h1] at h2
        simp at h2
      exact runRename_all_old_absent m fs Hqp e he
  refine ⟨hsaved, hfs, ?_, ?_⟩
  · show (verify_integrity (renamerSecondRun dirExists m d fs).saved
        (renamerSecondRun dirExists m d fs).fs).1
      = (verify_integrity (renamer_main dirExists m d fs).saved
        (renamer_main dirExists m d fs).fs).1
    rw [hsaved, hfs]
  · show (verify_integrity (renamerSecondRun dirExists m d fs).saved
        (renamerSecondRun dirExists m d fs).fs).2
      = (verify_integrity (renamer_main dirExists m d fs).saved
        (renamer_main dirExists m d fs).fs).2
    rw [hsaved, hfs]

/-! ## Claims about the JSON rewrite (C1, C4) and the missing directory (C10) -/

theorem update_categories_getElem (m : List (String × String)) (d : ArticlesData)
    (ci : Nat) :
    (update_articles_ids m d).categories[ci]? =
      (d.categories[ci]?).map (fun p => (p.1, p.2.map (updateArticle m))) := by
  simp [update_articles_ids]

theorem updateArticle_preserves_fields (m : List (String × String)) (a : Article) :
    (updateArticle m a).title = a.title ∧ (updateArticle m a).excerpt = a.excerpt ∧
    (updateArticle m a).date = a.date ∧ (updateArticle m a).readingTime = a.readingTime ∧
    (updateArticle m a).category = a.category ∧ (updateArticle m a).type = a.type ∧
    (updateArticle m a).tags = a.tags ∧ (updateArticle m a).content = a.content := by
  cases hl : m.lookup a.id with
  | none => simp [updateArticle, hl]
  | some v =>
    cases hu : a.url with
    | none => simp [updateArticle, hl, hu]
    | some u =>
      simp only [updateArticle, hl, hu]
      split
      · exact ⟨rfl, rfl, rfl, rfl, rfl, rfl, rfl, rfl⟩
      · split <;> exact ⟨rfl, rfl, rfl, rfl, rfl, rfl, rfl, rfl⟩

/-- C4: the Renamer's JSON rewrite keeps every category key in place and
keeps every record at its position inside its category; each rewritten
record differs from the original at most in its `id` and `url` fields. -/
theorem update_preserves_category_structure (m : List (String × String))
    (d : ArticlesData) :
    ((update_articles_ids m d).categories.map Prod.fst = d.categories.map Prod.fst) ∧
    ∀ (ci : Nat) (c : String) (arts : List Article), d.categories[ci]? = some (c, arts) →
      ∃ arts2 : List Article,
        (update_articles_ids m d).categories[ci]? = some (c, arts2) ∧
        arts2.length = arts.length ∧
        ∀ (ai : Nat) (a : Article), arts[ai]? = some a →
          ∃ a2 : Article, arts2[ai]? = some a2 ∧
          a2 = updateArticle m a ∧
          a2.title = a.title ∧ a2.excerpt = a.excerpt ∧ a2.date = a.date ∧
          a2.readingTime = a.readingTime ∧ a2.category = a.category ∧
          a2.type = a.type ∧ a2.tags = a.tags ∧ a2.content = a.content := by
  constructor
  · simp only [update_articles_ids]
    rw [List.map_map]
    apply List.map_congr_left
    intro p _
    rfl
  · intro ci c arts hc
    refine ⟨arts.map (updateArticle m), ?_, by simp, ?_⟩
    · rw [update_categories_getElem, hc]
      rfl
    · intro ai a ha
      refine ⟨updateArticle m a, by simp [ha], rfl, ?_⟩
      exact updateArticle_preserves_fields m a

/-- A FAQ record stored under the separate top-level `faqs` grouping,
with an id that is a key of the id-mapping table. -/
def sampleFaq : Article :=
  ⟨"business-faq-001", "饮食店FAQ", "faq excerpt", "2024-01-01", "5分钟",
    "business", "faq", [], none, none⟩

/-- A data file whose only record is `sampleFaq`, stored under `faqs`. -/
def faqOnlyData : ArticlesData :=
  ⟨[], some [("business", [sampleFaq])], none⟩

/-- C1 counterexample: `business-faq-001` is a key of the mapping table,
yet after the Renamer runs on a data file holding that record under the
separate `faqs` grouping, the record still carries its old id — the id
field does not become `mapping[old_id]`. -/
theorem faq_record_not_renamed :
    create_id_mapping.lookup "business-faq-001" = some "business-faq-restaurant" ∧
    (renamer_main true create_id_mapping faqOnlyData []).saved.faqs
      = some [("business", [sampleFaq])] ∧
    sampleFaq.id = "business-faq-001" ∧
    sampleFaq.id ≠ "business-faq-restaurant" := by
  refine ⟨by decide, rfl, rfl, by decide⟩

/-- C1, amended: for every record of the `categories` section whose id is
a mapping key, the Renamer's saved JSON carries the mapped id, and a
`knowledge/`-internal url is rewritten to end in `<new id>.html`; the
separate `faqs` grouping is left entirely unchanged. -/
theorem renamer_maps_category_record_ids (dirExists : Bool)
    (m : List (String × String)) (d : ArticlesData) (fs : FS)
    (ci : Nat) (c : String) (arts : List Article) (ai : Nat) (a : Article)
    (newId : String)
    (hc : d.categories[ci]? = some (c, arts))
    (ha : arts[ai]? = some a)
    (hl : m.lookup a.id = some newId) :
    (renamer_main dirExists m d fs).saved.faqs = d.faqs ∧
    ∃ arts2, (renamer_main dirExists m d fs).saved.categories[ci]? = some (c, arts2) ∧
      ∃ a2, arts2[ai]? = some a2 ∧ a2.id = newId ∧
        ∀ u, a.url = some u → pyStartsWith u "knowledge/" = true →
          ∃ u2, a2.url = some u2 ∧ pyEndsWith u2 (newId ++ ".html") = true := by
  have hsaved : (renamer_main dirExists m d fs).saved = update_articles_ids m d := rfl
  rw [hsaved]
  refine ⟨rfl, arts.map (updateArticle m), ?_, updateArticle m a, by simp [ha], ?_, ?_⟩
  · rw [update_categories_getElem, hc]
    rfl
  · exact updateArticle_id hl
  · intro u hu hstart
    refine ⟨kpath newId, ?_, ?_⟩
    · simp [updateArticle, hl, hu, hstart]
    · exact pyEndsWith_append "knowledge/" (newId ++ ".html")

/-- C10: with the `knowledge` directory absent, the rename step prints an
error and changes no file, but the run is not aborted: the updated JSON
has been saved and integrity verification still executes on it. -/
theorem renamer_missing_dir_nonfatal (m : List (String × String))
    (d : ArticlesData) (fs : FS) :
    (renamer_main false m d fs).fs = fs ∧
    (renamer_main false m d fs).renameLog = ["❌ 目录 knowledge 不存在"] ∧
    (renamer_main false m d fs).saved = update_articles_ids m d ∧
    (renamer_main false m d fs).issues = (verify_integrity (update_articles_ids m d) fs).1 ∧
    (renamer_main false m d fs).ok = (verify_integrity (update_articles_ids m d) fs).2 :=
  ⟨rfl, rfl, rfl, rfl, rfl⟩

/-! ## generate_missing_articles.py -/

/-- `extract_article_ids`: every article id of `categories` followed by
every FAQ id of the optional `faqs` grouping. -/
def extract_article_ids (d : ArticlesData) : List String :=
  (d.categories.flatMap (fun p => p.2.map Article.id)) ++
    (match d.faqs with
     | some fqs => fqs.flatMap (fun p => p.2.map Article.id)
     | none => [])

/-- The entry of `os.listdir('knowledge')` corresponding to a file-system
path: the path with the directory prefix removed, provided the path lies
directly in the `knowledge` directory. -/
def stripKnowledgeDir (n : String) : Option String :=
  if pyStartsWith n "knowledge/" then
    some ⟨n.data.drop ("knowledge/" : String).data.length⟩
  else none

/-- Models `os.listdir('knowledge')`: the names of the files directly
inside the `knowledge` directory. -/
def listdir_knowledge (fs : FS) : List String :=
  (fs.map Prod.fst).filterMap (fun n =>
    match stripKnowledgeDir n with
    | some b => if b.data.contains '/' then none else some b
    | none => none)

/-- `get_existing_html_files`: names of the `.html` files of the
`knowledge` directory, without the `.html` extension (`file[:-5]`). -/
def get_existing_html_files (fs : FS) : List String :=
  (listdir_knowledge fs).filterMap (fun f =>
    if pyEndsWith f ".html" then some (pySliceNeg f 5) else none)

/-- `generate_tags`: one `<span>` per tag, concatenated (empty for an
empty tag list). -/
def generate_tags (tags : List String) : String :=
  tags.foldl (fun acc t => acc ++ ("<span class=\"article-tag\">" ++ t ++ "</span>")) ""

/-- The part of the Generator's HTML template before the interpolated
free-form `content` field (title, description, header, meta spans,
heading and excerpt already interpolated). -/
def genHtmlBeforeContent (a : Article) : String :=
  "<!DOCTYPE html>\n<html lang=\"zh-CN\">\n<head>\n    <meta charset=\"UTF-8\">\n    <meta name=\"viewport\" content=\"width=device-width, initial-scale=1.0\">\n    <title>"
  ++ a.title ++
  " - Mobius知识库</title>\n    <meta name=\"description\" content=\""
  ++ a.excerpt ++
  "\">\n    <link rel=\"stylesheet\" href=\"../style.css\">\n    <link rel=\"preconnect\" href=\"https://fonts.googleapis.com\">\n    <link rel=\"preconnect\" href=\"https://fonts.gstatic.com\" crossorigin>\n    <link href=\"https://fonts.googleapis.com/css2?family=Inter:wght@300;400;500;600;700;800&family=Noto+Sans+SC:wght@300;400;500;600;700;800&display=swap\" rel=\"stylesheet\">\n    <link rel=\"stylesheet\" href=\"https://cdnjs.cloudflare.com/ajax/libs/font-awesome/6.5.1/css/all.min.css\">\n</head>\n<body>\n    <div class=\"container\">\n        <article class=\"knowledge-article\">\n            <header class=\"article-header\">\n                <div class=\"article-meta\">\n                    <span class=\"article-date\">"
  ++ a.date ++
  "</span>\n                    <span class=\"article-reading-time\">"
  ++ a.readingTime ++
  "</span>\n                </div>\n                <h1 class=\"article-title\">"
  ++ a.title ++
  "</h1>\n                <div class=\"article-excerpt\">\n                    <p>"
  ++ a.excerpt ++
  "</p>\n                </div>\n            </header>\n\n            <div class=\"article-content\">\n                <div class=\"content-wrapper\">\n                    "

/-- The part of the Generator's HTML template after the interpolated
`content` field (footer with the tag markup interpolated). -/
def genHtmlAfterContent (a : Article) : String :=
  "\n                </div>\n            </div>\n\n            <footer class=\"article-footer\">\n                <div class=\"article-tags\">\n                    "
  ++ generate_tags a.tags ++
  "\n                </div>\n                <div class=\"article-back-link\">\n                    <a href=\"../knowledge.html\" class=\"back-link\">\n                        <i class=\"fas fa-arrow-left\"></i>\n                        返回知识库\n                    </a>\n                </div>\n            </footer>\n        </article>\n    </div>\n</body>\n</html>"

/-- The full document produced by `generate_html_for_article` for one
record, with the record's `content` field (default `''`) embedded
verbatim. -/
def generate_html_content (a : Article) : String :=
  genHtmlBeforeContent a ++ a.content.getD "" ++ genHtmlAfterContent a

/-- The records of `main` of the Generator whose id has no existing
`.html` file: category records first, then FAQ records, in data order. -/
def missing_articles (d : ArticlesData) (fs : FS) : List Article :=
  (d.categories.flatMap Prod.snd).filter
      (fun a => !(get_existing_html_files fs).contains a.id) ++
    (match d.faqs with
     | some fqs => (fqs.flatMap Prod.snd).filter
        (fun a => !(get_existing_html_files fs).contains a.id)
     | none => [])

/-- The Generator's write loop: `generate_html_for_article` writes
`knowledge/<id>.html` for each missing record. -/
def generator_run : List Article → FS → FS
  | [], fs => fs
  | a :: rest, fs => generator_run rest (fsWrite fs (kpath a.id) (generate_html_content a))

/-- `main` of `generate_missing_articles.py`: compute the missing records
and generate a file for each. -/
def generator_main (d : ArticlesData) (fs : FS) : FS :=
  generator_run (missing_articles d fs) fs

/-! ## convert_to_markdown_html.py -/

/-- Python's default `str.strip` character class, as used on the tag
markup (only `'\n'` ever occurs there). -/
def pyIsSpace (c : Char) : Bool :=
  c == ' ' || c == '\n' || c == '\t' || c == '\r'

/-- Translation of Python `s.strip()`. -/
def pyStrip (s : String) : String :=
  ⟨((s.data.dropWhile pyIsSpace).reverse.dropWhile pyIsSpace).reverse⟩

/-- `generate_article_tags_html`: one `<span>` per tag followed by a
newline, with the final result stripped. -/
def generate_article_tags_html (tags : List String) : String :=
  pyStrip (tags.foldl
    (fun acc t => acc ++ ("<span class=\"article-tag\">" ++ t ++ "</span>\n")) "")

/-- The Converter's fixed template after the first interpolated `title`
(everything from `</title>` on, with all remaining record fields
interpolated). -/
def mdHtmlRest (a : Article) : String :=
  " - Mobius知识库</title>\n    <meta name=\"description\" content=\""
  ++ a.excerpt ++
  "\">\n    <link rel=\"stylesheet\" href=\"../style.css\">\n    <link rel=\"preconnect\" href=\"https://fonts.googleapis.com\">\n    <link rel=\"preconnect\" href=\"https://fonts.gstatic.com\" crossorigin>\n    <link href=\"https://fonts.googleapis.com/css2?family=Inter:wght@300;400;500;600;700;800&family=Noto+Sans+SC:wght@300;400;500;600;700;800&display=swap\" rel=\"stylesheet\">\n    <link rel=\"stylesheet\" href=\"https://cdnjs.cloudflare.com/ajax/libs/font-awesome/6.5.1/css/all.min.css\">\n</head>\n<body>\n    <div class=\"container\">\n        <article class=\"knowledge-article\">\n            <header class=\"article-header\">\n                <div class=\"article-meta\">\n                    <span class=\"article-date\">"
  ++ a.date ++
  "</span>\n                    <span class=\"article-reading-time\">"
  ++ a.readingTime ++
  "</span>\n                </div>\n                <h1 class=\"article-title\">"
  ++ a.title ++
  "</h1>\n                <div class=\"article-excerpt\">\n                    <p>"
  ++ a.excerpt ++
  "</p>\n                </div>\n            </header>\n\n            <div class=\"article-content\">\n                <div class=\"markdown-content\">\n                    <h2>概述</h2>\n                    <p>"
  ++ a.excerpt ++
  "</p>\n\n                    <h2>主要要点</h2>\n\n                    <h3>核心信息</h3>\n                    <ul>\n                        <li><strong>发布日期：</strong>"
  ++ a.date ++
  "</li>\n                        <li><strong>阅读时间：</strong>"
  ++ a.readingTime ++
  "</li>\n                        <li><strong>分类：</strong>"
  ++ a.category ++
  "</li>\n                        <li><strong>类型：</strong>"
  ++ a.type ++
  "</li>\n                    </ul>\n\n                    <h3>相关标签</h3>\n                    <p>"
  ++ String.intercalate ", " a.tags ++
  "</p>\n\n                    <h2>详细信息</h2>\n                    <p>本文章详细介绍"
  ++ a.category ++
  "相关的专业知识和实用指南。如需了解更多信息，请联系Mobius专业顾问。</p>\n\n                    <h2>专业服务</h2>\n                    <p>Mobius为您提供全方位的"
  ++ a.category ++
  "支持服务，包括专业咨询、申请协助、后续跟进等。通过我们的专业服务，让您的"
  ++ a.category ++
  "过程更加顺畅高效。</p>\n\n                    <h2>联系方式</h2>\n                    <p>如需了解更多信息或获取专业咨询，请联系我们的专业顾问团队。</p>\n                </div>\n            </div>\n\n            <footer class=\"article-footer\">\n                <div class=\"article-tags\">\n                    "
  ++ generate_article_tags_html a.tags ++
  "\n                </div>\n                <div class=\"article-back-link\">\n                    <a href=\"../knowledge.html\" class=\"back-link\">\n                        <i class=\"fas fa-arrow-left\"></i>\n                        返回知识库\n                    </a>\n                </div>\n            </footer>\n        </article>\n    </div>\n</body>\n</html>"

/-- `create_markdown_html_content`: the fixed Markdown-style template
populated from the record's fields (the `article_id` argument is unused,
as in the source). -/
def create_markdown_html_content (a : Article) (articleId : String) : String :=
  "<!DOCTYPE html>\n<html lang=\"zh-CN\">\n<head>\n    <meta charset=\"UTF-8\">\n    <meta name=\"viewport\" content=\"width=device-width, initial-scale=1.0\">\n    <title>"
  ++ a.title ++ mdHtmlRest a

/-- The Converter's record lookup: the first record of the `categories`
section whose id equals the stem (the nested loop with `break`).  The
`faqs` grouping is not searched. -/
def find_article (d : ArticlesData) (aid : String) : Option Article :=
  (d.categories.flatMap Prod.snd).find? (fun a => a.id == aid)

/-- `article_id = os.path.basename(file_path)[:-5]`. -/
def convertStem (filePath : String) : String :=
  pySliceNeg (lastSeg filePath) 5

/-- Models `glob.glob('knowledge/*.html')`: the paths of the `.html`
files directly inside the `knowledge` directory. -/
def glob_knowledge_html (fs : FS) : List String :=
  (fs.map Prod.fst).filter (fun n =>
    match stripKnowledgeDir n with
    | some b => !b.data.contains '/' && pyEndsWith b ".html"
    | none => false)

/-- The Converter's loop over the globbed files: overwrite each file that
has a matching record with the fixed template, report each file that has
none.  Returns the final file system and the report lines. -/
def convertRun (d : ArticlesData) : List String → FS → FS × List String
  | [], fs => (fs, [])
  | n :: rest, fs =>
    match find_article d (convertStem n) with
    | some a =>
      let next := convertRun d rest (fsWrite fs n (create_markdown_html_content a (convertStem n)))
      (next.1, next.2)
    | none =>
      let next := convertRun d rest fs
      (next.1, ("⚠️  未找到文章数据: " ++ lastSeg n) :: next.2)

/-- `main` of `convert_to_markdown_html.py`. -/
def converter_main (d : ArticlesData) (fs : FS) : FS × List String :=
  convertRun d (glob_knowledge_html fs) fs

/-! ## Path lemmas for the Generator and Converter -/

theorem stripKnowledgeDir_append (s : String) :
    stripKnowledgeDir ("knowledge/" ++ s) = some s := by
  rw [stripKnowledgeDir, if_pos (pyStartsWith_append "knowledge/" s)]
  congr 1

theorem contains_slash_html {a : String} (h : a.data.contains '/' = false) :
    (a ++ ".html").data.contains '/' = false := by
  rw [String.data_append, List.contains_eq_any_beq, List.any_append]
  rw [List.contains_eq_any_beq] at h
  have h2 : ((".html" : String).data.any fun x => '/' == x) = false := by decide
  rw [h, h2]
  rfl

theorem not_mem_of_contains_false {l : List Char} {a : Char}
    (h : l.contains a = false) : a ∉ l := by
  intro hmem
  rw [List.contains_eq_any_beq] at h
  rw [List.any_eq_false] at h
  exact h a hmem (by simp)

theorem lastSeg_knowledge (s : String) (h : s.data.contains '/' = false) :
    lastSeg ("knowledge/" ++ s) = s := by
  apply string_data_inj
  show ((("knowledge/" ++ s).data.reverse.takeWhile (fun c => !(c == '/'))).reverse) = s.data
  rw [String.data_append, List.reverse_append]
  have hall : ∀ c ∈ s.data.reverse, (fun c => !(c == '/')) c = true := by
    intro c hc
    have hcm : c ∈ s.data := List.mem_reverse.mp hc
    have : c ≠ '/' := fun hh => (not_mem_of_contains_false h) (hh ▸ hcm)
    simp [this]
  rw [List.takeWhile_append_of_pos hall]
  have hk : ("knowledge/" : String).data.reverse.takeWhile (fun c => !(c == '/')) = [] := by
    decide
  rw [hk, List.append_nil, List.reverse_reverse]

theorem convertStem_kpath (s : String) (h : s.data.contains '/' = false) :
    convertStem (kpath s) = s := by
  rw [convertStem]
  show pySliceNeg (lastSeg ("knowledge/" ++ (s ++ ".html"))) 5 = s
  rw [lastSeg_knowledge _ (contains_slash_html h), pySliceNeg_append (by decide)]

/-! ## Lemmas about the Generator (C6) -/

theorem existing_of_key_kpath {fs : FS} {aid : String}
    (hns : aid.data.contains '/' = false)
    (hmem : kpath aid ∈ fs.map Prod.fst) :
    aid ∈ get_existing_html_files fs := by
  have h1 : (aid ++ ".html") ∈ listdir_knowledge fs := by
    rw [listdir_knowledge, List.mem_filterMap]
    refine ⟨kpath aid, hmem, ?_⟩
    have hstrip : stripKnowledgeDir (kpath aid) = some (aid ++ ".html") :=
      stripKnowledgeDir_append (aid ++ ".html")
    rw [hstrip]
    simp only [contains_slash_html hns]
    simp
  rw [get_existing_html_files, List.mem_filterMap]
  refine ⟨aid ++ ".html", h1, ?_⟩
  rw [if_pos (pyEndsWith_append aid ".html"), pySliceNeg_append (by decide)]

theorem missing_not_existing {d : ArticlesData} {fs : FS} {a : Article}
    (ha : a ∈ missing_articles d fs) :
    (get_existing_html_files fs).contains a.id = false := by
  rw [missing_articles] at ha
  rcases List.mem_append.mp ha with h | h
  · have := List.of_mem_filter h
    simpa using this
  · cases hfq : d.faqs with
    | none => rw [hfq] at h; cases h
    | some fqs =>
      rw [hfq] at h
      have := List.of_mem_filter h
      simpa using this

theorem generator_run_read_preserved (L : List Article) (fs : FS) (f : String)
    (h : ∀ a ∈ L, kpath a.id ≠ f) :
    fsRead (generator_run L fs) f = fsRead fs f := by
  induction L generalizing fs with
  | nil => rfl
  | cons a rest ih =>
    rw [generator_run, ih _ (fun b hb => h b (List.mem_cons_of_mem a hb)),
      fsRead_write_ne _ _ _ _ (Ne.symm (h a (List.mem_cons_self a rest)))]

theorem generator_run_writes (L : List Article) (fs : FS)
    (HN : (L.map Article.id).Nodup) :
    ∀ a ∈ L, fsRead (generator_run L fs) (kpath a.id) = some (generate_html_content a) := by
  induction L generalizing fs with
  | nil => intro a ha; cases ha
  | cons hd rest ih =>
    have hnotin : hd.id ∉ rest.map Article.id := (List.nodup_cons.mp (by simpa using HN)).1
    have HNr : (rest.map Article.id).Nodup := (List.nodup_cons.mp (by simpa using HN)).2
    intro a ha
    rcases List.mem_cons.mp ha with rfl | harest
    · rw [generator_run,
        generator_run_read_preserved rest _ (kpath a.id) ?hne, fsRead_write_self]
      case hne =>
        intro b hb hkb
        exact hnotin ((kpath_inj hkb) ▸ List.mem_map_of_mem Article.id hb)
    · rw [generator_run]
      exact ih _ HNr a harest

/-- C6: the Generator's expected ids are all article ids followed by all
FAQ ids; the missing ids are exactly the expected ids with no existing
`<id>.html` file; each missing record gets a file holding the template
with its `content` field embedded verbatim; and every pre-existing file
keeps its content.  Hypotheses: ids are unique (the documented key
invariant) and contain no path separator (they are filename stems). -/
theorem generator_fills_missing_only (d : ArticlesData) (fs : FS)
    (HN : (extract_article_ids d).Nodup)
    (HS : ∀ a ∈ missing_articles d fs, a.id.data.contains '/' = false) :
    ((missing_articles d fs).map Article.id
      = (extract_article_ids d).filter
          (fun i => !(get_existing_html_files fs).contains i)) ∧
    (∀ n c, fsRead fs n = some c → fsRead (generator_main d fs) n = some c) ∧
    (∀ a ∈ missing_articles d fs,
      fsRead (generator_main d fs) (kpath a.id) = some (generate_html_content a) ∧
      ∃ pre post, generate_html_content a = pre ++ a.content.getD "" ++ post) := by
  have hids : (missing_articles d fs).map Article.id
      = (extract_article_ids d).filter
          (fun i => !(get_existing_html_files fs).contains i) := by
    cases hfq : d.faqs with
    | none =>
      rw [missing_articles, extract_article_ids, hfq]
      dsimp only
      simp only [List.append_nil]
      rw [← List.map_flatMap, List.filter_map]
      rfl
    | some fqs =>
      rw [missing_articles, extract_article_ids, hfq]
      dsimp only
      rw [List.map_append, List.filter_append]
      congr 1
      · rw [← List.map_flatMap, List.filter_map]
        rfl
      · rw [← List.map_flatMap, List.filter_map]
        rfl
  refine ⟨hids, ?_, ?_⟩
  · intro n c hr
    have hpres : ∀ a ∈ missing_articles d fs, kpath a.id ≠ n := by
      intro a ha hk
      have hmem : kpath a.id ∈ fs.map Prod.fst := by
        rw [hk]
        exact fsRead_some_key_mem hr
      have hex : a.id ∈ get_existing_html_files fs :=
        existing_of_key_kpath (HS a ha) hmem
      have hnotex := missing_not_existing ha
      rw [List.contains_eq_any_beq, List.any_eq_false] at hnotex
      exact hnotex a.id hex (by simp)
    rw [generator_main, generator_run_read_preserved _ _ _ hpres]
    exact hr
  · intro a ha
    have HNm : ((missing_articles d fs).map Article.id).Nodup := by
      rw [hids]
      exact HN.filter _
    exact ⟨generator_run_writes _ fs HNm a ha,
      genHtmlBeforeContent a, genHtmlAfterContent a, rfl⟩

/-! ## Claim about integrity verification (C7) -/

/-- C7: integrity verification collects all violations and succeeds
exactly when none was found: on a data structure whose `hotContent` holds
exactly one entry referencing an id matched by no record of any category
(and whose categories scan is clean), verification reports exactly the
one issue naming the dangling id and returns `False`; in general it
returns `True` iff the collected issue list is empty. -/
theorem verify_reports_dangling_hot_reference :
    (∀ (d : ArticlesData) (fs : FS) (x : String),
      d.hotContent = some [⟨x⟩] →
      (∀ p ∈ d.categories, ∀ a ∈ p.2, a.id ≠ x) →
      urlIssues fs d = [] →
      (verify_integrity d fs).1 = ["hotContent引用的文章不存在: " ++ x] ∧
      (verify_integrity d fs).2 = false) ∧
    (∀ (d : ArticlesData) (fs : FS),
      (verify_integrity d fs).2 = true ↔ (verify_integrity d fs).1 = []) := by
  constructor
  · intro d fs x hhot hno hurl
    have hany : (d.categories.flatMap Prod.snd).any (fun a => a.id == x) = false := by
      rw [List.any_eq_false]
      intro a ha
      obtain ⟨p, hp, hap⟩ := List.mem_flatMap.mp ha
      simpa using hno p hp a hap
    have hh : hotIssues d = ["hotContent引用的文章不存在: " ++ x] := by
      rw [hotIssues, hhot]
      simp [hany]
    constructor
    · show urlIssues fs d ++ hotIssues d = _
      rw [hurl, hh]
      rfl
    · show (urlIssues fs d ++ hotIssues d).isEmpty = false
      rw [hurl, hh]
      rfl
  · intro d fs
    show (urlIssues fs d ++ hotIssues d).isEmpty = true ↔
      urlIssues fs d ++ hotIssues d = []
    rw [← List.isEmpty_iff]

/-! ## Lemmas about the Converter (C8, C9) -/

theorem glob_mem_of_key {fs : FS} {s : String}
    (hs : s.data.contains '/' = false)
    (hmem : kpath s ∈ fs.map Prod.fst) :
    kpath s ∈ glob_knowledge_html fs := by
  rw [glob_knowledge_html, List.mem_filter]
  refine ⟨hmem, ?_⟩
  have hstrip : stripKnowledgeDir (kpath s) = some (s ++ ".html") :=
    stripKnowledgeDir_append (s ++ ".html")
  simp only [hstrip, contains_slash_html hs, pyEndsWith_append]
  rfl

theorem convertRun_read_preserved (d : ArticlesData) (names : List String)
    (fs : FS) (f : String) (h : f ∉ names) :
    fsRead (convertRun d names fs).1 f = fsRead fs f := by
  induction names generalizing fs with
  | nil => rfl
  | cons n rest ih =>
    have hne : f ≠ n := fun hh => h (hh ▸ List.mem_cons_self n rest)
    have hrest : f ∉ rest := fun hh => h (List.mem_cons_of_mem n hh)
    cases hfind : find_article d (convertStem n) with
    | some a =>
      simp only [convertRun, hfind]
      rw [ih _ hrest, fsRead_write_ne _ _ _ _ hne]
    | none =>
      simp only [convertRun, hfind]
      exact ih _ hrest

theorem convertRun_spec (d : ArticlesData) (names : List String) (fs : FS)
    (HN : names.Nodup) :
    ∀ n ∈ names,
      (∀ a, find_article d (convertStem n) = some a →
        fsRead (convertRun d names fs).1 n
          = some (create_markdown_html_content a (convertStem n))) ∧
      (find_article d (convertStem n) = none →
        fsRead (convertRun d names fs).1 n = fsRead fs n ∧
        ("⚠️  未找到文章数据: " ++ lastSeg n) ∈ (convertRun d names fs).2) := by
  induction names generalizing fs with
  | nil => intro n hn; cases hn
  | cons hd rest ih =>
    obtain ⟨hhd, HNr⟩ := List.nodup_cons.mp HN
    intro n hn
    rcases List.mem_cons.mp hn with rfl | hnrest
    · cases hfind : find_article d (convertStem n) with
      | some a =>
        constructor
        · intro a' hfa
          injection hfa with haa
          subst haa
          simp only [convertRun, hfind]
          rw [convertRun_read_preserved d rest _ n hhd, fsRead_write_self]
        · intro hnone
          exact Option.noConfusion hnone
      | none =>
        constructor
        · intro a' hfa
          exact Option.noConfusion hfa
        · intro _
          simp only [convertRun, hfind]
          exact ⟨convertRun_read_preserved d rest fs n hhd, List.mem_cons_self _ _⟩
    · have hne : n ≠ hd := fun hh => hhd (hh ▸ hnrest)
      cases hfind : find_article d (convertStem hd) with
      | some a =>
        simp only [convertRun, hfind]
        have ihe := ih (fsWrite fs hd (create_markdown_html_content a (convertStem hd)))
          HNr n hnrest
        refine ⟨ihe.1, fun hnone => ?_⟩
        have h2 := ihe.2 hnone
        rw [fsRead_write_ne _ _ _ _ hne] at h2
        exact h2
      | none =>
        simp only [convertRun, hfind]
        have ihe := ih fs HNr n hnrest
        exact ⟨ihe.1, fun hnone =>
          ⟨(ihe.2 hnone).1, List.mem_cons_of_mem _ (ihe.2 hnone).2⟩⟩

/-- C8: for every existing `knowledge/<s>.html` file, the Converter looks
up the record whose id is the stem `s`; when one is found the file ends
up holding exactly the fixed template populated from that record (which
contains the record's title and nothing of the previous content); when
none is found the file keeps its content and the file is reported. -/
theorem converter_overwrites_matched_files (d : ArticlesData) (fs : FS)
    (s c : String)
    (HN : (fs.map Prod.fst).Nodup)
    (HS : s.data.contains '/' = false)
    (HR : fsRead fs (kpath s) = some c) :
    (∀ a, find_article d s = some a →
      fsRead (converter_main d fs).1 (kpath s)
        = some (create_markdown_html_content a s) ∧
      ∃ pre post, create_markdown_html_content a s = pre ++ a.title ++ post) ∧
    (find_article d s = none →
      fsRead (converter_main d fs).1 (kpath s) = some c ∧
      ("⚠️  未找到文章数据: " ++ (s ++ ".html")) ∈ (converter_main d fs).2) := by
  have hmem : kpath s ∈ glob_knowledge_html fs :=
    glob_mem_of_key HS (fsRead_some_key_mem HR)
  have hnodup : (glob_knowledge_html fs).Nodup := HN.filter _
  have hstem : convertStem (kpath s) = s := convertStem_kpath s HS
  have hlast : lastSeg (kpath s) = s ++ ".html" := by
    show lastSeg ("knowledge/" ++ (s ++ ".html")) = s ++ ".html"
    exact lastSeg_knowledge _ (contains_slash_html HS)
  have main := convertRun_spec d (glob_knowledge_html fs) fs hnodup (kpath s) hmem
  rw [hstem, hlast] at main
  constructor
  · intro a hf
    refine ⟨main.1 a hf, ?_⟩
    exact ⟨"<!DOCTYPE html>\n<html lang=\"zh-CN\">\n<head>\n    <meta charset=\"UTF-8\">\n    <meta name=\"viewport\" content=\"width=device-width, initial-scale=1.0\">\n    <title>",
      mdHtmlRest a, rfl⟩
  · intro hf
    have h2 := main.2 hf
    exact ⟨h2.1.trans HR, h2.2⟩

/-- C9: the Converter's lookup searches only the `categories` section.
An existing file whose stem is the id of a record of the separate `faqs`
grouping, matching no category record, is reported as unmatched and its
content is left unchanged. -/
theorem converter_ignores_faq_records (d : ArticlesData) (fs : FS)
    (s c : String) (fqs : List (String × List Article))
    (HN : (fs.map Prod.fst).Nodup)
    (HS : s.data.contains '/' = false)
    (HR : fsRead fs (kpath s) = some c)
    (hfq : d.faqs = some fqs)
    (hfaq : ∃ p ∈ fqs, ∃ a ∈ p.2, a.id = s)
    (hnocat : ∀ p ∈ d.categories, ∀ a ∈ p.2, a.id ≠ s) :
    fsRead (converter_main d fs).1 (kpath s) = some c ∧
    ("⚠️  未找到文章数据: " ++ (s ++ ".html")) ∈ (converter_main d fs).2 := by
  have hfind : find_article d s = none := by
    rw [find_article, List.find?_eq_none]
    intro a ha
    obtain ⟨p, hp, hap⟩ := List.mem_flatMap.mp ha
    simpa using hnocat p hp a hap
  have hmem : kpath s ∈ glob_knowledge_html fs :=
    glob_mem_of_key HS (fsRead_some_key_mem HR)
  have hnodup : (glob_knowledge_html fs).Nodup := HN.filter _
  have hstem : convertStem (kpath s) = s := convertStem_kpath s HS
  have hlast : lastSeg (kpath s) = s ++ ".html" := by
    show lastSeg ("knowledge/" ++ (s ++ ".html")) = s ++ ".html"
    exact lastSeg_knowledge _ (contains_slash_html HS)
  have main := convertRun_spec d (glob_knowledge_html fs) fs hnodup (kpath s) hmem
  rw [hstem, hlast] at main
  have h2 := main.2 hfind
  exact ⟨h2.1.trans HR, h2.2⟩

/-! ## Concrete data for the witnesses -/

/-- A category article record with a mapped id and an internal url. -/
def wArticle : Article :=
  ⟨"japan-banking-guide", "银行开户指南", "日本银行开户介绍", "2024-05-01", "8分钟",
    "life", "article", ["银行"], some "<p>正文</p>",
    some "knowledge/japan-banking-guide.html"⟩

/-- A data file with one category record and one hotContent reference. -/
def wData : ArticlesData :=
  ⟨[("life", [wArticle])], none, some [⟨"japan-banking-guide"⟩]⟩

/-- A knowledge directory holding the old-id file of `wArticle`. -/
def wfs1 : FS :=
  [("knowledge/japan-banking-guide.html", "<a data-id=\"japan-banking-guide\"></a>")]

/-- A category record with no url, carrying a standardized id. -/
def wArticleNoUrl : Article :=
  ⟨"life-article-banking", "银行指南", "概要", "2024-06-01", "6分钟",
    "life", "article", ["银行"], none, none⟩

/-- A data file whose single hotContent entry dangles. -/
def wVerifyData : ArticlesData :=
  ⟨[("life", [wArticleNoUrl])], none, some [⟨"ghost"⟩]⟩

/-- A data file for the Converter with one category record. -/
def wConvData : ArticlesData :=
  ⟨[("life", [wArticleNoUrl])], none, none⟩

/-- A knowledge directory with a pre-existing page for the record. -/
def wConvFs : FS :=
  [("knowledge/life-article-banking.html", "OLD BODY")]

/-- A data file with a category record and a separate FAQ record. -/
def wFaqConvData : ArticlesData :=
  ⟨[("life", [wArticleNoUrl])], some [("business", [sampleFaq])], none⟩

/-- A knowledge directory with a page named after the FAQ record's id. -/
def wFaqConvFs : FS :=
  [("knowledge/business-faq-001.html", "OLD FAQ BODY")]

/-- A file system holding only a non-knowledge file. -/
def wGenFs : FS := [("notes.txt", "keep")]

/-! ## Witnesses -/

theorem renamer_maps_category_record_ids_witness :
    (wData.categories[0]? = some ("life", [wArticle]) ∧
     ([wArticle] : List Article)[0]? = some wArticle ∧
     create_id_mapping.lookup wArticle.id = some "life-article-banking") ∧
    ((renamer_main true create_id_mapping wData []).saved.faqs = wData.faqs ∧
     ∃ arts2, (renamer_main true create_id_mapping wData []).saved.categories[0]?
        = some ("life", arts2) ∧
      ∃ a2, arts2[0]? = some a2 ∧ a2.id = "life-article-banking" ∧
        ∀ u, wArticle.url = some u → pyStartsWith u "knowledge/" = true →
          ∃ u2, a2.url = some u2 ∧
            pyEndsWith u2 ("life-article-banking" ++ ".html") = true) := by
  refine ⟨⟨rfl, rfl, by decide⟩, ?_⟩
  exact renamer_maps_category_record_ids true create_id_mapping wData [] 0 "life"
    [wArticle] 0 wArticle "life-article-banking" rfl rfl (by decide)

theorem renamer_old_new_file_exclusivity_witness :
    ((create_id_mapping.map Prod.fst).Nodup ∧
     (∀ p ∈ create_id_mapping, ∀ q ∈ create_id_mapping, p.1 ≠ q.2) ∧
     (create_id_mapping.map Prod.snd).Nodup ∧
     ("japan-banking-guide", "life-article-banking") ∈ create_id_mapping ∧
     (fsRead wfs1 (kpath "japan-banking-guide")).isSome = true) ∧
    (fsRead (rename_html_files true create_id_mapping wfs1).1
        (kpath "japan-banking-guide") = none ∧
     (fsRead (rename_html_files true create_id_mapping wfs1).1
        (kpath "life-article-banking")).isSome = true) := by
  refine ⟨⟨by decide, by decide, by decide, by decide, by decide⟩, ?_⟩
  exact ((renamer_old_new_file_exclusivity create_id_mapping wfs1 (by decide) (by decide)
    (by decide)) ("japan-banking-guide", "life-article-banking") (by decide)).1 (by decide)

theorem renamer_idempotent_witness :
    (∀ p ∈ create_id_mapping, create_id_mapping.lookup p.2 = none) ∧
    ((renamerSecondRun true create_id_mapping wData wfs1).saved
        = (renamer_main true create_id_mapping wData wfs1).saved ∧
     (renamerSecondRun true create_id_mapping wData wfs1).fs
        = (renamer_main true create_id_mapping wData wfs1).fs ∧
     (renamerSecondRun true create_id_mapping wData wfs1).issues
        = (renamer_main true create_id_mapping wData wfs1).issues ∧
     (renamerSecondRun true create_id_mapping wData wfs1).ok
        = (renamer_main true create_id_mapping wData wfs1).ok) := by
  refine ⟨by decide, ?_⟩
  exact renamer_idempotent true create_id_mapping wData wfs1 (by decide)

theorem update_preserves_category_structure_witness :
    (wData.categories[0]? = some ("life", [wArticle])) ∧
    ((update_articles_ids create_id_mapping wData).categories.map Prod.fst
        = wData.categories.map Prod.fst) ∧
    (∃ arts2 : List Article,
      (update_articles_ids create_id_mapping wData).categories[0]?
          = some ("life", arts2) ∧
      arts2.length = ([wArticle] : List Article).length ∧
      ∀ (ai : Nat) (a : Article), ([wArticle] : List Article)[ai]? = some a →
        ∃ a2 : Article, arts2[ai]? = some a2 ∧
          a2 = updateArticle create_id_mapping a ∧
          a2.title = a.title ∧ a2.excerpt = a.excerpt ∧ a2.date = a.date ∧
          a2.readingTime = a.readingTime ∧ a2.category = a.category ∧
          a2.type = a.type ∧ a2.tags = a.tags ∧ a2.content = a.content) := by
  refine ⟨rfl, (update_preserves_category_structure create_id_mapping wData).1, ?_⟩
  exact (update_preserves_category_structure create_id_mapping wData).2
    0 "life" [wArticle] rfl

theorem renamer_rewrites_and_moves_content_witness :
    ((create_id_mapping.map Prod.fst).Nodup ∧
     (∀ p ∈ create_id_mapping, ∀ q ∈ create_id_mapping, p.1 ≠ q.2) ∧
     (create_id_mapping.map Prod.snd).Nodup ∧
     ("japan-banking-guide", "life-article-banking") ∈ create_id_mapping ∧
     fsRead wfs1 (kpath "japan-banking-guide")
        = some "<a data-id=\"japan-banking-guide\"></a>") ∧
    (fsRead (rename_html_files true create_id_mapping wfs1).1
        (kpath "life-article-banking")
      = some (replacedContent ("japan-banking-guide", "life-article-banking")
          "<a data-id=\"japan-banking-guide\"></a>") ∧
     fsRead (rename_html_files true create_id_mapping wfs1).1
        (kpath "japan-banking-guide") = none) := by
  refine ⟨⟨by decide, by decide, by decide, by decide, by decide⟩, ?_⟩
  exact ((renamer_rewrites_and_moves_content create_id_mapping wfs1 (by decide) (by decide)
    (by decide)) ("japan-banking-guide", "life-article-banking") (by decide)).1
    "<a data-id=\"japan-banking-guide\"></a>" (by decide)

theorem generator_fills_missing_only_witness :
    ((extract_article_ids wData).Nodup ∧
     (∀ a ∈ missing_articles wData wGenFs, a.id.data.contains '/' = false) ∧
     fsRead wGenFs "notes.txt" = some "keep" ∧
     wArticle ∈ missing_articles wData wGenFs) ∧
    ((missing_articles wData wGenFs).map Article.id
        = (extract_article_ids wData).filter
            (fun i => !(get_existing_html_files wGenFs).contains i) ∧
     fsRead (generator_main wData wGenFs) "notes.txt" = some "keep" ∧
     fsRead (generator_main wData wGenFs) (kpath wArticle.id)
        = some (generate_html_content wArticle)) := by
  have main := generator_fills_missing_only wData wGenFs (by decide) (by decide)
  exact ⟨⟨by decide, by decide, by decide, by decide⟩,
    main.1, main.2.1 "notes.txt" "keep" (by decide),
    (main.2.2 wArticle (by decide)).1⟩

theorem verify_reports_dangling_hot_reference_witness :
    (wVerifyData.hotContent = some [⟨"ghost"⟩] ∧
     (∀ p ∈ wVerifyData.categories, ∀ a ∈ p.2, a.id ≠ "ghost") ∧
     urlIssues [] wVerifyData = []) ∧
    ((verify_integrity wVerifyData []).1 = ["hotContent引用的文章不存在: " ++ "ghost"] ∧
     (verify_integrity wVerifyData []).2 = false) := by
  refine ⟨⟨rfl, by decide, rfl⟩, ?_⟩
  exact verify_reports_dangling_hot_reference.1 wVerifyData [] "ghost" rfl (by decide) rfl

theorem converter_overwrites_matched_files_witness :
    ((wConvFs.map Prod.fst).Nodup ∧
     ("life-article-banking" : String).data.contains '/' = false ∧
     fsRead wConvFs (kpath "life-article-banking") = some "OLD BODY" ∧
     find_article wConvData "life-article-banking" = some wArticleNoUrl) ∧
    (fsRead (converter_main wConvData wConvFs).1 (kpath "life-article-banking")
        = some (create_markdown_html_content wArticleNoUrl "life-article-banking")) := by
  refine ⟨⟨by decide, by decide, by decide, by decide⟩, ?_⟩
  exact ((converter_overwrites_matched_files wConvData wConvFs "life-article-banking"
    "OLD BODY" (by decide) (by decide) (by decide)).1 wArticleNoUrl (by decide)).1

theorem converter_ignores_faq_records_witness :
    ((wFaqConvFs.map Prod.fst).Nodup ∧
     ("business-faq-001" : String).data.contains '/' = false ∧
     fsRead wFaqConvFs (kpath "business-faq-001") = some "OLD FAQ BODY" ∧
     wFaqConvData.faqs = some [("business", [sampleFaq])] ∧
     (∃ p ∈ [("business", [sampleFaq])], ∃ a ∈ p.2, a.id = "business-faq-001") ∧
     (∀ p ∈ wFaqConvData.categories, ∀ a ∈ p.2, a.id ≠ "business-faq-001")) ∧
    (fsRead (converter_main wFaqConvData wFaqConvFs).1 (kpath "business-faq-001")
        = some "OLD FAQ BODY" ∧
     ("⚠️  未找到文章数据: " ++ ("business-faq-001" ++ ".html"))
        ∈ (converter_main wFaqConvData wFaqConvFs).2) := by
  refine ⟨⟨by decide, by decide, by decide, rfl, by decide, by decide⟩, ?_⟩
  exact converter_ignores_faq_records wFaqConvData wFaqConvFs "business-faq-001"
    "OLD FAQ BODY" [("business", [sampleFaq])] (by decide) (by decide) (by decide)
    rfl (by decide) (by decide)
